import Mathlib

/-!
Shallow embedding of the NFL Stats Explorer aggregation pipeline
(src/streamlit_app.py).

Pandas DataFrames are modelled as lists of rows (structures or tuples),
column access as field access, `groupby` as key-deduplication followed by a
per-key aggregate, and `pd.merge` as an explicit key-matching combination.
Group keys and outer-merge rows are enumerated in first-occurrence order
(pandas sorts them lexicographically); every property proved below is
independent of that enumeration order.  Numeric stat columns are
modelled as `Int`, idealising the floating point of the source; none of
the properties below depends on the numeric domain, and the concrete
inputs used for counterexamples are chosen so that every arithmetic fact
(including the one exact mean) is integer-valued.
-/

namespace NFL

/-- One play-by-play row; only the columns read by the defensive
aggregation in `load_and_aggregate_pbp_data` are modelled.  A `none`
player column is a pandas NaN (dropped by `dropna`). -/
structure Play where
  sack : Int
  sack_player_name : Option String
  interception : Int
  interception_player_name : Option String
  fumble_forced : Int
  forced_fumble_player_1_player_name : Option String
  pass_defense_1_player_name : Option String
  fumble : Int
  fumble_recovery_1_player_name : Option String
deriving DecidableEq

/-- One row of the seasonal roster table (`import_seasonal_rosters`),
projected to the two columns the app reads. -/
structure RosterEntry where
  player_name : String
  position : String
deriving DecidableEq

/-- One row of the weekly offensive table (`import_weekly_data`).  The
named offensive counters are modelled as one total function from column
name to value; the app only ever reads the nine `OFFENSE_STATS` columns. -/
structure WeeklyRow where
  player_display_name : String
  position : String
  week : Int
  season_type : String
  stats : String → Int

/-- One row of a Next Gen Stats table (`import_ngs_data`). -/
structure NgsRow where
  player_display_name : String
  season : Int
  week : Int
  stats : String → Int

/-- The OFFENSE_STATS display-label to column-key table (source lines 68-72). -/
def OFFENSE_STATS : List (String × String) :=
  [("Passing Yards", "passing_yards"), ("Passing TDs", "passing_tds"),
   ("Interceptions Thrown", "interceptions"), ("Sacks Taken", "sacks"),
   ("Rushing Yards", "rushing_yards"), ("Rushing TDs", "rushing_tds"),
   ("Receptions", "receptions"), ("Receiving Yards", "receiving_yards"),
   ("Receiving TDs", "receiving_tds")]

/-- The DEFENSE_STATS display-label to column-key table (source lines 73-76). -/
def DEFENSE_STATS : List (String × String) :=
  [("Sacks", "sacks"), ("Interceptions", "interceptions"),
   ("Passes Defended", "passes_defended"), ("Forced Fumbles", "fumbles_forced"),
   ("Fumbles Recovered", "fumbles_recovered")]

/-- The NGS_TRANSLATIONS internal-name to display-label table (lines 77-81). -/
def NGS_TRANSLATIONS : List (String × String) :=
  [("avg_time_to_throw", "Avg Time to Throw (sec)"),
   ("avg_completed_air_yards", "Avg Completed Air Yards"),
   ("avg_intended_air_yards", "Avg Intended Air Yards"),
   ("efficiency", "Rushing Efficiency"),
   ("rush_yards_over_expected", "Rush Yards Over Expected")]

/-- Key column of an association table (pandas: the join/group column). -/
def keysOf (t : List (String × α)) : List String := t.map Prod.fst

/-- Per-kind table for the count kinds (`passes_defended`,
`fumbles_recovered`): `pbp.dropna(subset=[player_col]).groupby(player_col)
.size()` (source lines 43-46). -/
def countTable (plays : List Play) (playerCol : Play → Option String) :
    List (String × Int) :=
  let rows := plays.filter (fun p => (playerCol p).isSome)
  ((rows.filterMap playerCol).dedup).map
    (fun k => (k, ((rows.filter (fun p => playerCol p == some k)).length : Int)))

/-- Per-kind table for the flag kinds (`sacks`, `interceptions`,
`fumbles_forced`): drop rows with no attributed player, keep rows whose
flag equals 1, then sum the flag per player (source lines 43-48). -/
def flagSumTable (plays : List Play) (flagCol : Play → Int)
    (playerCol : Play → Option String) : List (String × Int) :=
  let rows := (plays.filter (fun p => (playerCol p).isSome)).filter
    (fun p => flagCol p == 1)
  ((rows.filterMap playerCol).dedup).map
    (fun k => (k, ((rows.filter (fun p => playerCol p == some k)).map flagCol).sum))

/-- The five per-kind (player, count) tables, in the insertion order of
`def_stats_dict` (source lines 32-38): sacks, interceptions,
fumbles_forced, passes_defended, fumbles_recovered.  All five player
columns exist in real play-by-play data, so the `if player_col in
pbp_df.columns` guard always passes here. -/
def defKindTables (plays : List Play) : List (List (String × Int)) :=
  [flagSumTable plays Play.sack Play.sack_player_name,
   flagSumTable plays Play.interception Play.interception_player_name,
   flagSumTable plays Play.fumble_forced Play.forced_fumble_player_1_player_name,
   countTable plays Play.pass_defense_1_player_name,
   countTable plays Play.fumble_recovery_1_player_name]

/-- One row of the partially merged defensive table: player name plus one
`Option Int` per already-merged kind (a `none` is a pandas NaN). -/
abbrev MRow := String × List (Option Int)

/-- One step of the outer merge (`pd.merge(left, right,
on=player_display_name, how=outer)`, source line 55): every left row
gains the matching right value (or NaN), and right rows whose key is new
are appended with NaN for all `n` previous kind columns. -/
def mergeOuter (left : List MRow) (n : Nat) (right : List (String × Int)) :
    List MRow :=
  left.map (fun r => (r.1, r.2 ++ [List.lookup r.1 right])) ++
    (right.filter (fun q => decide (q.1 ∉ keysOf left))).map
      (fun q => (q.1, List.replicate n none ++ [some q.2]))

/-- The fold `reduce(lambda l, r: pd.merge(l, r, ...), tables)`;
`n` counts the kind columns merged so far. -/
def mergeFold (acc : List MRow) (n : Nat) : List (List (String × Int)) → List MRow
  | [] => acc
  | t :: ts => mergeFold (mergeOuter acc n t) (n + 1) ts

/-- The full outer join of a list of per-kind tables. -/
def mergeAll (ts : List (List (String × Int))) : List MRow := mergeFold [] 0 ts

/-- Pandas `defensive_df.fillna(0)` followed by `astype(int)` (source lines
56-59): every missing kind value becomes the integer 0. -/
def fillZero (t : List MRow) : List (String × List Int) :=
  t.map (fun r => (r.1, r.2.map (fun v => v.getD 0)))

/-- Pandas `rosters_df[[player_name, position]].drop_duplicates(subset=
[player_display_name])` (source lines 61-62): keep the first roster row
for each player name. -/
def player_positions (roster : List RosterEntry) : List (String × String) :=
  roster.foldl
    (fun acc e =>
      if (keysOf acc).contains e.player_name then acc
      else acc ++ [(e.player_name, e.position)])
    []

/-- The function `load_and_aggregate_pbp_data` (source lines 23-65): build the five
per-kind tables, outer-join them on player name, fill missing counters
with 0, and left-join the deduplicated roster positions.  A row is
(player_display_name, the five counters in kind order, position).  The
`if not aggregated_stats` early return (line 53) is dead under the fixed
five-column schema modelled here. -/
def load_and_aggregate_pbp_data (plays : List Play) (roster : List RosterEntry) :
    List (String × List Int × Option String) :=
  let aggregated_stats := defKindTables plays
  let defensive_df := fillZero (mergeAll aggregated_stats)
  defensive_df.map
    (fun r => (r.1, r.2, List.lookup r.1 (player_positions roster)))

/-! ### Leaderboards (tab1) and player summary (tab2) -/

/-- Pandas `df.sort_values(by=key, ascending=False)` modelled as an insertion
sort by the descending order on `key`.  The source calls pandas with its
default sort kind; every property proved below about the sorted output
(sortedness, length, membership) holds for any correct sorting
algorithm. -/
def sortDescBy [LinearOrder β] (key : α → β) (l : List α) : List α :=
  List.insertionSort (fun a b => key b ≤ key a) l

/-- Pandas `leaderboard.reset_index(drop=True); leaderboard.index += 1`:
attach rank labels 1, 2, ... to the rows in order. -/
def addRanks (l : List α) : List (Nat × α) :=
  List.enumFrom 1 l

/-- Column position of a defensive stat key inside the merged counter
list, following the `def_stats_dict` insertion order. -/
def statIndex (s : String) : Nat :=
  if s == "sacks" then 0
  else if s == "interceptions" then 1
  else if s == "fumbles_forced" then 2
  else if s == "passes_defended" then 3
  else 4

/-- Counter of kind `s` in a merged defensive row. -/
def defStat (r : String × List Int × Option String) (s : String) : Int :=
  r.2.1.getD (statIndex s) 0

/-- Column list of the final defensive dataframe. -/
def defensive_columns : List String :=
  ["player_display_name", "sacks", "interceptions", "fumbles_forced",
   "passes_defended", "fumbles_recovered", "position"]

/-- Defense leaderboard body (source lines 148-152): sort descending by
the stat, keep strictly positive rows, take the first 20, project to
(player, position, stat) and attach ranks starting at 1. -/
def tab1_defense_lb (df : List (String × List Int × Option String))
    (stat : String) : List (Nat × (String × Option String × Int)) :=
  let sorted := sortDescBy (fun r => defStat r stat) df
  let positive := sorted.filter (fun r => decide (0 < defStat r stat))
  addRanks ((positive.take 20).map (fun r => (r.1, r.2.2, defStat r stat)))

/-- Defense tab (source line 147): the leaderboard is built only when the
stat column exists in the defensive dataframe; otherwise nothing is
produced. -/
def tab1_defense (cols : List String) (df : List (String × List Int × Option String))
    (stat : String) : Option (List (Nat × (String × Option String × Int))) :=
  if cols.contains stat then some (tab1_defense_lb df stat) else none

/-- The filter `weekly_df[(weekly_df.week >= lo) & (weekly_df.week <= hi)]`
(source line 162). -/
def weekFilter (lo hi : Int) (rows : List WeeklyRow) : List WeeklyRow :=
  rows.filter (fun r => decide (lo ≤ r.week ∧ r.week ≤ hi))

/-- Offense leaderboard (source lines 162, 182-184): filter the weekly
table to the selected week range, group by (player, position), sum the
stat within each group, sort descending, take 20 and attach ranks. -/
def tab1_offense_lb (weekly : List WeeklyRow) (lo hi : Int) (stat : String) :
    List (Nat × ((String × String) × Int)) :=
  let dfl := weekFilter lo hi weekly
  let grouped := ((dfl.map (fun r => (r.player_display_name, r.position))).dedup).map
    (fun k => (k, ((dfl.filter
      (fun r => (r.player_display_name, r.position) == k)).map
        (fun r => r.stats stat)).sum))
  addRanks ((sortDescBy (fun g => g.2) grouped).take 20)

/-- Offense tab guard (source line 180): a leaderboard is produced only
when the stat column exists and the week-filtered table is nonempty. -/
def tab1_offense (cols : List String) (weekly : List WeeklyRow) (lo hi : Int)
    (stat : String) : Option (List (Nat × ((String × String) × Int))) :=
  if cols.contains stat && !(weekFilter lo hi weekly).isEmpty then
    some (tab1_offense_lb weekly lo hi stat)
  else none

/-- NGS leaderboard (source lines 172-173, 182-184): the week-filtered
weekly table is replaced wholesale by the NGS table filtered only by
season; then group by player, sum the metric, sort descending, take 20,
attach ranks. -/
def tab1_ngs_lb (ngs : List NgsRow) (year : Int) (stat : String) :
    List (Nat × (String × Int)) :=
  let dfl := ngs.filter (fun r => decide (r.season = year))
  let grouped := ((dfl.map (fun r => r.player_display_name)).dedup).map
    (fun k => (k, ((dfl.filter (fun r => r.player_display_name == k)).map
      (fun r => r.stats stat)).sum))
  addRanks ((sortDescBy (fun g => g.2) grouped).take 20)

/-- NGS tab guard (source line 180), applied to the season-filtered NGS
table. -/
def tab1_ngs (cols : List String) (ngs : List NgsRow) (year : Int)
    (stat : String) : Option (List (Nat × (String × Int))) :=
  if cols.contains stat && !(ngs.filter (fun r => decide (r.season = year))).isEmpty
  then some (tab1_ngs_lb ngs year stat)
  else none

/-- The NGS branch of tab1 as the app executes it (source lines 160-162,
170-188): the week slider filters the weekly table into
`df_for_leaders`, which the NGS branch immediately overwrites with the
season-filtered NGS table; the leaderboard is built from the latter,
while the chart title is built from the selected week range. -/
def tab1_ngs_view (weekly_df : List WeeklyRow) (ngs_raw : List NgsRow)
    (year lo hi : Int) (subKey stat : String) :
    List (Nat × (String × Int)) × String :=
  let df_for_leaders := weekFilter lo hi weekly_df
  ((tab1_ngs_lb ngs_raw year stat),
   "Top 20 Leaders: " ++ subKey ++ " (Weeks " ++ toString lo ++ "-" ++
     toString hi ++ ")")

/-- Season-type radio filter (source lines 117-122). -/
def season_filtered (toggle : String) (weekly : List WeeklyRow) : List WeeklyRow :=
  if toggle == "Regular Season" then
    weekly.filter (fun r => r.season_type == "REG")
  else if toggle == "Postseason" then
    weekly.filter (fun r => r.season_type == "POST")
  else weekly

/-- The defensive data visible in the app for a given season-type toggle
(source lines 114-124, 142-153): the weekly table is season-type
filtered, but the defensive dataframe is taken raw and the defense
leaderboard is built from it alone. -/
def app_defense_view (weekly_raw : List WeeklyRow) (plays : List Play)
    (roster : List RosterEntry) (toggle stat : String) :
    List (String × List Int × Option String) ×
      Option (List (Nat × (String × Option String × Int))) :=
  let weekly_df := season_filtered toggle weekly_raw
  let defensive_df := load_and_aggregate_pbp_data plays roster
  (defensive_df, tab1_defense defensive_columns defensive_df stat)

/-- Does `pat` occur as a contiguous sublist?  Models the Python
substring test `pat in s` on the character lists. -/
def hasSub (pat : List Char) : List Char → Bool
  | [] => pat.isEmpty
  | c :: rest => pat.isPrefixOf (c :: rest) || hasSub pat rest

/-- The aggregation selector computed on source line 181:
`{'sum' if 'avg' not in stat_column else 'mean'}`.  The surrounding code
never uses this value; line 182 always calls `.sum()`. -/
def aggregation (stat_column : String) : String :=
  if hasSub "avg".toList stat_column.toList then "mean" else "sum"

/-- Player search tab (source lines 208-232): restrict the (season-type
filtered) weekly table to the player; `cols_with_data` is the offensive
columns whose full-season sum is strictly positive; the full-season
aggregate sums each such column; the range aggregate sums them over the
selected week range only and then drops non-positive sums.  Returns
(cols_with_data, full-season aggregate, range aggregate). -/
def tab2_summary (weekly : List WeeklyRow) (player : String) (lo hi : Int) :
    List String × List (String × Int) × List (String × Int) :=
  let player_weekly_stats := weekly.filter
    (fun r => r.player_display_name == player)
  let cols_with_data := (OFFENSE_STATS.map Prod.snd).filter
    (fun c => decide (0 < ((player_weekly_stats.map (fun r => r.stats c)).sum)))
  let agg_stats := cols_with_data.map
    (fun c => (c, (player_weekly_stats.map (fun r => r.stats c)).sum))
  let player_filtered_df := player_weekly_stats.filter
    (fun r => decide (lo ≤ r.week ∧ r.week ≤ hi))
  let range_agg_stats := (cols_with_data.map
    (fun c => (c, (player_filtered_df.map (fun r => r.stats c)).sum))).filter
    (fun e => decide (0 < e.2))
  (cols_with_data, agg_stats, range_agg_stats)

/-- The three ranked-output properties claimed for every leaderboard:
adjacent metric values are non-increasing, at most 20 rows, and the rank
labels are exactly 1..length. -/
def RankedProps [LinearOrder β] (metric : α → β) (d : Nat × α)
    (L : List (Nat × α)) : Prop :=
  (∀ i : Nat, i + 1 < L.length →
      metric (L.getD (i + 1) d).2 ≤ metric (L.getD i d).2) ∧
  L.length ≤ 20 ∧
  L.map Prod.fst = List.range' 1 L.length

/-! ### Lookup and key lemmas -/

theorem lookup_eq_none_of_not_mem {β : Type} {t : List (String × β)} {a : String}
    (h : a ∉ keysOf t) : List.lookup a t = none := by
  induction t with
  | nil => rfl
  | cons q t ih =>
    simp only [keysOf, List.map_cons, List.mem_cons, not_or] at h
    rw [List.lookup_cons]
    have hb : (a == q.1) = false := beq_false_of_ne h.1
    simp only [hb]
    exact ih h.2

theorem mem_of_lookup_eq_some {β : Type} {t : List (String × β)} {a : String}
    {v : β} (h : List.lookup a t = some v) : (a, v) ∈ t := by
  induction t with
  | nil => exact Option.noConfusion h
  | cons q t ih =>
    rw [List.lookup_cons] at h
    cases hb : (a == q.1) with
    | true =>
      simp only [hb, Option.some.injEq] at h
      have ha : a = q.1 := beq_iff_eq.mp hb
      have hav : (a, v) = q := by rw [ha, ← h]
      rw [hav]
      exact List.mem_cons_self q t
    | false =>
      simp only [hb] at h
      exact List.mem_cons_of_mem _ (ih h)

theorem mem_keys_of_mem {β : Type} {t : List (String × β)} {q : String × β}
    (h : q ∈ t) : q.1 ∈ keysOf t := List.mem_map_of_mem Prod.fst h

/-- In a table with no duplicate keys, exactly one row carries a present
key. -/
theorem filter_key_length_one {β : Type} [DecidableEq β]
    {t : List (String × β)} {a : String} (hn : (keysOf t).Nodup)
    (ha : a ∈ keysOf t) :
    (t.filter (fun r => r.1 == a)).length = 1 := by
  induction t with
  | nil => simp [keysOf] at ha
  | cons q t ih =>
    simp only [keysOf, List.map_cons, List.nodup_cons] at hn
    simp only [keysOf, List.map_cons, List.mem_cons] at ha
    by_cases hq : q.1 = a
    · have : t.filter (fun r => r.1 == a) = [] := by
        apply List.filter_eq_nil_iff.mpr
        intro r hr hcontra
        simp only [beq_iff_eq] at hcontra
        exact hn.1 (hq ▸ hcontra ▸ mem_keys_of_mem hr)
      simp [List.filter_cons, hq, this]
    · have ha2 : a ∈ keysOf t := by
        rcases ha with h1 | h2
        · exact absurd h1.symm hq
        · exact h2
      have := ih hn.2 ha2
      simp only [List.filter_cons]
      simp only [beq_iff_eq, hq, if_false]
      exact this

/-! ### Outer-merge lemmas -/

theorem mergeOuter_keys (left : List MRow) (n : Nat)
    (right : List (String × Int)) :
    keysOf (mergeOuter left n right) =
      keysOf left ++
        keysOf (right.filter (fun q => decide (q.1 ∉ keysOf left))) := by
  simp only [mergeOuter, keysOf, List.map_append, List.map_map]
  rfl

theorem mem_keys_filter_not {right : List (String × Int)} {left : List MRow}
    {a : String} :
    a ∈ keysOf (right.filter (fun q => decide (q.1 ∉ keysOf left))) ↔
      a ∈ keysOf right ∧ a ∉ keysOf left := by
  simp only [keysOf, List.mem_map, List.mem_filter, decide_eq_true_eq]
  constructor
  · rintro ⟨q, ⟨hq, hnot⟩, rfl⟩
    exact ⟨⟨q, hq, rfl⟩, hnot⟩
  · rintro ⟨⟨q, hq, rfl⟩, hnot⟩
    exact ⟨q, ⟨hq, hnot⟩, rfl⟩

theorem mergeOuter_mem_keys {left : List MRow} {n : Nat}
    {right : List (String × Int)} {a : String} :
    a ∈ keysOf (mergeOuter left n right) ↔
      a ∈ keysOf left ∨ a ∈ keysOf right := by
  rw [mergeOuter_keys, List.mem_append, mem_keys_filter_not]
  constructor
  · rintro (h | ⟨h, _⟩)
    · exact Or.inl h
    · exact Or.inr h
  · rintro (h | h)
    · exact Or.inl h
    · by_cases hl : a ∈ keysOf left
      · exact Or.inl hl
      · exact Or.inr ⟨h, hl⟩

theorem mergeOuter_nodup {left : List MRow} {n : Nat}
    {right : List (String × Int)} (hl : (keysOf left).Nodup)
    (hr : (keysOf right).Nodup) :
    (keysOf (mergeOuter left n right)).Nodup := by
  rw [mergeOuter_keys]
  refine List.Nodup.append hl ?_ ?_
  · exact List.Nodup.sublist
      (List.Sublist.map Prod.fst (List.filter_sublist right)) hr
  · intro a ha hb
    exact (mem_keys_filter_not.mp hb).2 ha

theorem mergeOuter_rows {left : List MRow} {n : Nat}
    {right : List (String × Int)} {r : MRow} (h : r ∈ mergeOuter left n right) :
    (∃ r0 ∈ left, (r0.1, r0.2 ++ [List.lookup r0.1 right]) = r) ∨
      (∃ q ∈ right, q.1 ∉ keysOf left ∧
        (q.1, List.replicate n none ++ [some q.2]) = r) := by
  rcases List.mem_append.mp h with h | h
  · rcases List.mem_map.mp h with ⟨r0, h0, heq⟩
    exact Or.inl ⟨r0, h0, heq⟩
  · rcases List.mem_map.mp h with ⟨q, hq, heq⟩
    rcases List.mem_filter.mp hq with ⟨hq1, hq2⟩
    exact Or.inr ⟨q, hq1, of_decide_eq_true hq2, heq⟩

theorem mergeOuter_len {left : List MRow} {n : Nat}
    {right : List (String × Int)} {r : MRow}
    (hlen : ∀ r0 ∈ left, r0.2.length = n) (hr : r ∈ mergeOuter left n right) :
    r.2.length = n + 1 := by
  rcases mergeOuter_rows hr with ⟨r0, h0, heq⟩ | ⟨q, _, _, heq⟩
  · rw [← heq]
    simp [hlen r0 h0]
  · rw [← heq]
    simp

/-! ### The fold invariant of the outer join -/

theorem mergeFold_spec (ts : List (List (String × Int))) (acc : List MRow)
    (n : Nat) (hts : ∀ t ∈ ts, (keysOf t).Nodup)
    (hacc : (keysOf acc).Nodup) (hlen : ∀ r ∈ acc, r.2.length = n) :
    (keysOf (mergeFold acc n ts)).Nodup
    ∧ (∀ a, a ∈ keysOf (mergeFold acc n ts) ↔
        a ∈ keysOf acc ∨ ∃ t ∈ ts, a ∈ keysOf t)
    ∧ (∀ r ∈ mergeFold acc n ts, r.2.length = n + ts.length)
    ∧ (∀ r ∈ mergeFold acc n ts,
        (∃ r0 ∈ acc, r0.1 = r.1 ∧ ∀ i, i < n → r.2[i]? = r0.2[i]?)
        ∨ (r.1 ∉ keysOf acc ∧ ∀ i, i < n → r.2[i]? = some none))
    ∧ (∀ r ∈ mergeFold acc n ts, ∀ i, i < ts.length →
        (r.1 ∉ keysOf (ts.getD i []) → r.2[n + i]? = some none)
        ∧ (∀ v, r.2[n + i]? = some (some v) → (r.1, v) ∈ ts.getD i [])) := by
  induction ts generalizing acc n with
  | nil =>
    refine ⟨hacc, ?_, ?_, ?_, ?_⟩
    · intro a
      simp [mergeFold]
    · intro r hr
      simpa [mergeFold] using hlen r hr
    · intro r hr
      exact Or.inl ⟨r, hr, rfl, fun i _ => rfl⟩
    · intro r _ i hi
      exact absurd hi (by simp)
  | cons t ts ih =>
    have ht : (keysOf t).Nodup := hts t (List.mem_cons_self t ts)
    have hts2 : ∀ u ∈ ts, (keysOf u).Nodup :=
      fun u hu => hts u (List.mem_cons_of_mem t hu)
    have hacc2 : (keysOf (mergeOuter acc n t)).Nodup := mergeOuter_nodup hacc ht
    have hlen2 : ∀ r ∈ mergeOuter acc n t, r.2.length = n + 1 :=
      fun r hr => mergeOuter_len hlen hr
    obtain ⟨IH1, IH2, IH3, IH4, IH5⟩ :=
      ih (mergeOuter acc n t) (n + 1) hts2 hacc2 hlen2
    have hfold : mergeFold acc n (t :: ts) =
        mergeFold (mergeOuter acc n t) (n + 1) ts := rfl
    rw [hfold]
    refine ⟨IH1, ?_, ?_, ?_, ?_⟩
    · intro a
      rw [IH2 a]
      constructor
      · rintro (h | ⟨u, hu, ha⟩)
        · rcases mergeOuter_mem_keys.mp h with h | h
          · exact Or.inl h
          · exact Or.inr ⟨t, List.mem_cons_self t ts, h⟩
        · exact Or.inr ⟨u, List.mem_cons_of_mem t hu, ha⟩
      · rintro (h | ⟨u, hu, ha⟩)
        · exact Or.inl (mergeOuter_mem_keys.mpr (Or.inl h))
        · rcases List.mem_cons.mp hu with rfl | hu2
          · exact Or.inl (mergeOuter_mem_keys.mpr (Or.inr ha))
          · exact Or.inr ⟨u, hu2, ha⟩
    · intro r hr
      have h3 := IH3 r hr
      rw [h3, List.length_cons]
      omega
    · intro r hr
      rcases IH4 r hr with ⟨r1, hr1, hk, hvals⟩ | ⟨hnk, hvals⟩
      · rcases mergeOuter_rows hr1 with ⟨r0, h0, heq⟩ | ⟨q, hq, hnkq, heq⟩
        · left
          refine ⟨r0, h0, ?_, ?_⟩
          · rw [← heq] at hk
            exact hk
          · intro i hi
            have hv := hvals i (Nat.lt_succ_of_lt hi)
            rw [← heq] at hv
            rw [hv]
            exact List.getElem?_append_left (by rw [hlen r0 h0]; exact hi)
        · right
          have hk2 : r.1 = q.1 := by
            rw [← heq] at hk
            exact hk.symm
          constructor
          · rw [hk2]
            exact hnkq
          · intro i hi
            have hv := hvals i (Nat.lt_succ_of_lt hi)
            rw [← heq] at hv
            rw [hv, List.getElem?_append_left (by simp [hi]),
              List.getElem?_replicate_of_lt hi]
      · right
        constructor
        · intro hmem
          exact hnk (mergeOuter_mem_keys.mpr (Or.inl hmem))
        · intro i hi
          exact hvals i (Nat.lt_succ_of_lt hi)
    · intro r hr i hi
      cases i with
      | zero =>
        rw [Nat.add_zero, List.getD_cons_zero]
        rcases IH4 r hr with ⟨r1, hr1, hk, hvals⟩ | ⟨hnk, hvals⟩
        · have hpos : r.2[n]? = r1.2[n]? := hvals n (Nat.lt_succ_self n)
          rcases mergeOuter_rows hr1 with ⟨r0, h0, heq⟩ | ⟨q, hq, hnkq, heq⟩
          · have hk0 : r0.1 = r.1 := by
              rw [← heq] at hk
              exact hk
            have hval : r1.2[n]? = some (List.lookup r0.1 t) := by
              rw [← heq]
              show (r0.2 ++ [List.lookup r0.1 t])[n]? = some (List.lookup r0.1 t)
              rw [← hlen r0 h0]
              exact List.getElem?_concat_length r0.2 (List.lookup r0.1 t)
            constructor
            · intro hnotin
              have hl : List.lookup r0.1 t = none := by
                rw [hk0]
                exact lookup_eq_none_of_not_mem hnotin
              rw [hpos, hval, hl]
            · intro v hv
              rw [hpos, hval] at hv
              have : List.lookup r0.1 t = some v := Option.some.inj hv
              rw [← hk0]
              exact mem_of_lookup_eq_some this
          · have hk2 : r.1 = q.1 := by
              rw [← heq] at hk
              exact hk.symm
            have hval : r1.2[n]? = some (some q.2) := by
              rw [← heq]
              show (List.replicate n (Option.none (α := Int)) ++ [some q.2])[n]? =
                some (some q.2)
              have hrep : (List.replicate n (Option.none (α := Int))).length = n :=
                List.length_replicate n none
              nth_rewrite 2 [← hrep]
              exact List.getElem?_concat_length _ (some q.2)
            constructor
            · intro hnotin
              exact absurd (hk2 ▸ mem_keys_of_mem hq) hnotin
            · intro v hv
              rw [hpos, hval] at hv
              have hv2 : q.2 = v := Option.some.inj (Option.some.inj hv ▸ rfl)
              have : (r.1, v) = q := by
                rw [hk2, ← hv2]
              rw [this]
              exact hq
        · have hpos : r.2[n]? = some none := hvals n (Nat.lt_succ_self n)
          constructor
          · intro _
            exact hpos
          · intro v hv
            rw [hpos] at hv
            exact absurd (Option.some.inj hv) (by simp)
      | succ j =>
        have hj : j < ts.length := by
          rw [List.length_cons] at hi
          omega
        have hT := IH5 r hr j hj
        have hidx : n + (j + 1) = (n + 1) + j := by omega
        rw [List.getD_cons_succ, hidx]
        exact hT

/-! ### Per-kind table lemmas and the defensive pipeline -/

theorem keysOf_map_pair (ks : List String) (f : String → Int) :
    keysOf (ks.map (fun k => (k, f k))) = ks := by
  simp only [keysOf, List.map_map]
  exact List.map_id ks

theorem countTable_keys_nodup (plays : List Play)
    (playerCol : Play → Option String) :
    (keysOf (countTable plays playerCol)).Nodup := by
  rw [countTable, keysOf_map_pair]
  exact List.nodup_dedup _

theorem flagSumTable_keys_nodup (plays : List Play) (flagCol : Play → Int)
    (playerCol : Play → Option String) :
    (keysOf (flagSumTable plays flagCol playerCol)).Nodup := by
  rw [flagSumTable, keysOf_map_pair]
  exact List.nodup_dedup _

theorem defKindTables_nodup (plays : List Play) :
    ∀ t ∈ defKindTables plays, (keysOf t).Nodup := by
  intro t ht
  simp only [defKindTables, List.mem_cons, List.not_mem_nil, or_false] at ht
  rcases ht with rfl | rfl | rfl | rfl | rfl
  · exact flagSumTable_keys_nodup ..
  · exact flagSumTable_keys_nodup ..
  · exact flagSumTable_keys_nodup ..
  · exact countTable_keys_nodup ..
  · exact countTable_keys_nodup ..

theorem countTable_val_nonneg (plays : List Play)
    (playerCol : Play → Option String) :
    ∀ q ∈ countTable plays playerCol, 0 ≤ q.2 := by
  intro q hq
  rw [countTable] at hq
  rcases List.mem_map.mp hq with ⟨k, _, rfl⟩
  exact Int.natCast_nonneg _

theorem flagSumTable_val_nonneg (plays : List Play) (flagCol : Play → Int)
    (playerCol : Play → Option String) :
    ∀ q ∈ flagSumTable plays flagCol playerCol, 0 ≤ q.2 := by
  intro q hq
  rw [flagSumTable] at hq
  rcases List.mem_map.mp hq with ⟨k, _, rfl⟩
  apply List.sum_nonneg
  intro x hx
  rcases List.mem_map.mp hx with ⟨p, hp, rfl⟩
  have hp2 := List.mem_filter.mp hp
  have hp3 := List.mem_filter.mp hp2.1
  have : flagCol p = 1 := by
    have := hp3.2
    simpa using this
  rw [this]
  exact zero_le_one

theorem defKindTables_val_nonneg (plays : List Play) :
    ∀ t ∈ defKindTables plays, ∀ q ∈ t, 0 ≤ q.2 := by
  intro t ht
  simp only [defKindTables, List.mem_cons, List.not_mem_nil, or_false] at ht
  rcases ht with rfl | rfl | rfl | rfl | rfl
  · exact flagSumTable_val_nonneg plays Play.sack Play.sack_player_name
  · exact flagSumTable_val_nonneg plays Play.interception
      Play.interception_player_name
  · exact flagSumTable_val_nonneg plays Play.fumble_forced
      Play.forced_fumble_player_1_player_name
  · exact countTable_val_nonneg plays Play.pass_defense_1_player_name
  · exact countTable_val_nonneg plays Play.fumble_recovery_1_player_name

theorem keysOf_load (plays : List Play) (roster : List RosterEntry) :
    keysOf (load_and_aggregate_pbp_data plays roster) =
      keysOf (mergeAll (defKindTables plays)) := by
  simp only [load_and_aggregate_pbp_data, fillZero, keysOf, List.map_map]
  rfl

theorem load_rows (plays : List Play) (roster : List RosterEntry)
    {r : String × List Int × Option String}
    (hr : r ∈ load_and_aggregate_pbp_data plays roster) :
    ∃ m ∈ mergeAll (defKindTables plays),
      r = (m.1, m.2.map (fun v => v.getD 0),
        List.lookup m.1 (player_positions roster)) := by
  simp only [load_and_aggregate_pbp_data, fillZero, List.map_map,
    List.mem_map] at hr
  rcases hr with ⟨m, hm, heq⟩
  exact ⟨m, hm, heq.symm⟩

theorem getD_mem_of_lt {l : List α} {i : Nat} (d : α) (h : i < l.length) :
    l.getD i d ∈ l := by
  rw [List.getD_eq_getElem?_getD, List.getElem?_eq_getElem h]
  exact List.getElem_mem h

/-- The five specification facts of the outer join, instantiated at the
five per-kind defensive tables. -/
theorem mergeAll_spec (plays : List Play) :
    (keysOf (mergeAll (defKindTables plays))).Nodup
    ∧ (∀ a, a ∈ keysOf (mergeAll (defKindTables plays)) ↔
        ∃ t ∈ defKindTables plays, a ∈ keysOf t)
    ∧ (∀ m ∈ mergeAll (defKindTables plays), m.2.length = 5)
    ∧ (∀ m ∈ mergeAll (defKindTables plays), ∀ i, i < 5 →
        (m.1 ∉ keysOf ((defKindTables plays).getD i []) → m.2[i]? = some none)
        ∧ (∀ v, m.2[i]? = some (some v) →
            (m.1, v) ∈ (defKindTables plays).getD i [])) := by
  obtain ⟨h1, h2, h3, h4, h5⟩ := mergeFold_spec (defKindTables plays) [] 0
    (defKindTables_nodup plays) (by simp [keysOf]) (by simp)
  refine ⟨h1, ?_, ?_, ?_⟩
  · intro a
    have := h2 a
    simpa [keysOf] using this
  · intro m hm
    exact h3 m hm
  · intro m hm i hi
    have hT := h5 m hm i (show i < (defKindTables plays).length from hi)
    rw [Nat.zero_add] at hT
    exact hT

/-- Claim C1.  Every player name appearing in at least one of the five
per-kind tables appears exactly once as a row of the final defensive
table, and every counter for a kind whose per-kind table does not
mention that player equals 0. -/
theorem C1_outer_join_completeness (plays : List Play) (roster : List RosterEntry)
    (name : String) (hname : ∃ t ∈ defKindTables plays, name ∈ keysOf t) :
    ((load_and_aggregate_pbp_data plays roster).filter
        (fun r => r.1 == name)).length = 1
    ∧ ∀ r ∈ load_and_aggregate_pbp_data plays roster, r.1 = name →
        r.2.1.length = 5 ∧ ∀ i, i < 5 →
          name ∉ keysOf ((defKindTables plays).getD i []) →
            r.2.1[i]? = some 0 := by
  obtain ⟨hnd, hkeys, hlen, hT⟩ := mergeAll_spec plays
  constructor
  · apply filter_key_length_one
    · rw [keysOf_load]
      exact hnd
    · rw [keysOf_load]
      exact (hkeys name).mpr hname
  · intro r hr hrname
    obtain ⟨m, hm, rfl⟩ := load_rows plays roster hr
    have hm1 : m.1 = name := hrname
    refine ⟨by simp [hlen m hm], ?_⟩
    intro i hi hnot
    have hnone : m.2[i]? = some none := (hT m hm i hi).1 (by rw [hm1]; exact hnot)
    show (m.2.map (fun v => v.getD 0))[i]? = some 0
    rw [List.getElem?_map, hnone]
    rfl

/-- A play-by-play row recording a sack by player B (concrete witness
input). -/
def playSackB : Play := ⟨1, some "B", 0, none, 0, none, none, 0, none⟩

theorem C1_outer_join_completeness_witness :
    ((load_and_aggregate_pbp_data [playSackB] []).filter
        (fun r => r.1 == "B")).length = 1
    ∧ ("B", [(1 : Int), 0, 0, 0, 0], (none : Option String)).2.1[1]? = some 0 :=
  ⟨(C1_outer_join_completeness [playSackB] [] "B"
      ⟨_, List.mem_cons_self _ _, by decide⟩).1,
   ((C1_outer_join_completeness [playSackB] [] "B"
      ⟨_, List.mem_cons_self _ _, by decide⟩).2
      ("B", [(1 : Int), 0, 0, 0, 0], (none : Option String))
      (by decide) rfl).2 1 (by decide) (by decide)⟩

/-- Claim C6.  Every row of the final defensive table carries exactly the five
integer counters, and each counter is non-negative (integrality is by
construction: the counters live in `ℤ`). -/
theorem C6_counters_nonneg (plays : List Play) (roster : List RosterEntry) :
    ∀ r ∈ load_and_aggregate_pbp_data plays roster,
      r.2.1.length = 5 ∧ ∀ v ∈ r.2.1, 0 ≤ v := by
  obtain ⟨hnd, hkeys, hlen, hT⟩ := mergeAll_spec plays
  intro r hr
  obtain ⟨m, hm, rfl⟩ := load_rows plays roster hr
  refine ⟨by simp [hlen m hm], ?_⟩
  intro v hv
  rcases List.mem_map.mp hv with ⟨o, ho, rfl⟩
  rcases List.mem_iff_getElem?.mp ho with ⟨i, hio⟩
  have hi5 : i < 5 := by
    rcases List.getElem?_eq_some_iff.mp hio with ⟨hil, _⟩
    rw [hlen m hm] at hil
    exact hil
  cases o with
  | none => simp
  | some x =>
    have hx := (hT m hm i hi5).2 x hio
    have hnn := defKindTables_val_nonneg plays _
      (getD_mem_of_lt [] (show i < (defKindTables plays).length from hi5)) _ hx
    simpa using hnn

theorem C6_counters_nonneg_witness :
    ("B", [(1 : Int), 0, 0, 0, 0], (none : Option String)) ∈
        load_and_aggregate_pbp_data [playSackB] []
    ∧ (1 : Int) ∈ [(1 : Int), 0, 0, 0, 0]
    ∧ 0 ≤ (1 : Int) :=
  ⟨by decide, by decide,
   (C6_counters_nonneg [playSackB] []
      ("B", [(1 : Int), 0, 0, 0, 0], (none : Option String)) (by decide)).2
      1 (by decide)⟩

/-! ### Sortedness and ranking lemmas -/

theorem sortDescBy_pairwise [LinearOrder β] (key : α → β) (l : List α) :
    (sortDescBy key l).Pairwise (fun a b => key b ≤ key a) := by
  haveI : IsTotal α (fun a b => key b ≤ key a) :=
    ⟨fun a b => le_total (key b) (key a)⟩
  haveI : IsTrans α (fun a b => key b ≤ key a) :=
    ⟨fun a b c h1 h2 => le_trans h2 h1⟩
  exact List.sorted_insertionSort _ l

theorem mem_sortDescBy [LinearOrder β] {key : α → β} {l : List α} {x : α}
    (h : x ∈ sortDescBy key l) : x ∈ l :=
  (List.perm_insertionSort _ l).subset h

theorem mem_snd_addRanks {l : List α} {e : Nat × α} (h : e ∈ addRanks l) :
    e.2 ∈ l := by
  rcases List.mem_iff_getElem?.mp h with ⟨i, hi⟩
  rw [addRanks, List.getElem?_enumFrom] at hi
  rcases Option.map_eq_some'.mp hi with ⟨a, ha, haeq⟩
  have h2 : e.2 = a := by rw [← haeq]
  rw [h2]
  exact List.getElem?_mem ha

theorem addRanks_getD_snd {l : List α} {i : Nat} (d : Nat × α)
    (h : i < l.length) : ((addRanks l).getD i d).2 = l.get ⟨i, h⟩ := by
  rw [List.getD_eq_getElem?_getD, addRanks, List.getElem?_enumFrom,
    List.getElem?_eq_getElem h]
  rfl

theorem rankedProps_of_pairwise [LinearOrder β] (metric : α → β) (d : Nat × α)
    {l : List α} (h : l.Pairwise (fun a b => metric b ≤ metric a))
    (hlen : l.length ≤ 20) : RankedProps metric d (addRanks l) := by
  have hL : (addRanks l).length = l.length := List.enumFrom_length
  refine ⟨?_, ?_, ?_⟩
  · intro i hi
    rw [hL] at hi
    rw [addRanks_getD_snd d hi, addRanks_getD_snd d (Nat.lt_of_succ_lt hi)]
    exact List.pairwise_iff_getElem.mp h i (i + 1)
      (Nat.lt_of_succ_lt hi) hi (Nat.lt_succ_self i)
  · rw [hL]
    exact hlen
  · rw [addRanks, List.enumFrom_map_fst, List.enumFrom_length]

theorem rankedProps_sort_take [LinearOrder β] (metric : α → β) (d : Nat × α)
    (l : List α) :
    RankedProps metric d (addRanks ((sortDescBy metric l).take 20)) := by
  apply rankedProps_of_pairwise
  · exact List.Pairwise.sublist (List.take_sublist 20 _)
      (sortDescBy_pairwise metric l)
  · rw [List.length_take]
    omega

/-- Claim C2.  Every leaderboard of the three tab-1 paths (defense,
offense, Next Gen Stats) has adjacent metric values in non-increasing
order, at most 20 rows, and rank labels exactly 1..length with no
gaps. -/
theorem C2_leaderboard_ordering (df : List (String × List Int × Option String))
    (stat : String) (weekly : List WeeklyRow) (lo hi : Int) (ostat : String)
    (ngs : List NgsRow) (year : Int) (nstat : String) :
    RankedProps (fun e => e.2.2) (0, ("", none, 0)) (tab1_defense_lb df stat)
    ∧ RankedProps (fun e => e.2) (0, (("", ""), 0))
        (tab1_offense_lb weekly lo hi ostat)
    ∧ RankedProps (fun e => e.2) (0, ("", 0)) (tab1_ngs_lb ngs year nstat) := by
  refine ⟨?_, ?_, ?_⟩
  · apply rankedProps_of_pairwise
    · rw [List.pairwise_map]
      exact List.Pairwise.sublist (List.take_sublist 20 _)
        (List.Pairwise.sublist (List.filter_sublist _)
          (sortDescBy_pairwise (fun r => defStat r stat) df))
    · rw [List.length_map, List.length_take]
      omega
  · exact rankedProps_sort_take _ _ _
  · exact rankedProps_sort_take _ _ _

/-- Concrete inputs for the leaderboard-shape witness. -/
def dfTwo : List (String × List Int × Option String) :=
  [("A", [3, 0, 0, 0, 0], none), ("B", [1, 0, 0, 0, 0], none)]

def wkA : WeeklyRow := ⟨"A", "QB", 1, "REG", fun _ => 7⟩

def wkB : WeeklyRow := ⟨"B", "RB", 1, "REG", fun _ => 5⟩

def ngA : NgsRow := ⟨"A", 2024, 1, fun _ => 7⟩

def ngB : NgsRow := ⟨"B", 2024, 1, fun _ => 5⟩

theorem C2_leaderboard_ordering_witness :
    ((tab1_defense_lb dfTwo "sacks").getD 1 (0, ("", none, 0))).2.2.2 ≤
      ((tab1_defense_lb dfTwo "sacks").getD 0 (0, ("", none, 0))).2.2.2
    ∧ (tab1_defense_lb dfTwo "sacks").length ≤ 20
    ∧ (tab1_defense_lb dfTwo "sacks").map Prod.fst =
        List.range' 1 (tab1_defense_lb dfTwo "sacks").length
    ∧ ((tab1_offense_lb [wkA, wkB] 1 1 "passing_yards").getD 1
        (0, (("", ""), 0))).2.2 ≤
      ((tab1_offense_lb [wkA, wkB] 1 1 "passing_yards").getD 0
        (0, (("", ""), 0))).2.2
    ∧ ((tab1_ngs_lb [ngA, ngB] 2024 "avg_time_to_throw").getD 1
        (0, ("", 0))).2.2 ≤
      ((tab1_ngs_lb [ngA, ngB] 2024 "avg_time_to_throw").getD 0
        (0, ("", 0))).2.2 := by
  obtain ⟨d1, d2, d3⟩ := (C2_leaderboard_ordering dfTwo "sacks" [wkA, wkB] 1 1
    "passing_yards" [ngA, ngB] 2024 "avg_time_to_throw").1
  obtain ⟨o1, -, -⟩ := (C2_leaderboard_ordering dfTwo "sacks" [wkA, wkB] 1 1
    "passing_yards" [ngA, ngB] 2024 "avg_time_to_throw").2.1
  obtain ⟨n1, -, -⟩ := (C2_leaderboard_ordering dfTwo "sacks" [wkA, wkB] 1 1
    "passing_yards" [ngA, ngB] 2024 "avg_time_to_throw").2.2
  exact ⟨d1 0 (by decide), d2, d3, o1 0 (by decide), n1 0 (by decide)⟩

/-! ### Week-range filtering of the leaderboard aggregates -/

theorem tab1_offense_lb_value (weekly : List WeeklyRow) (lo hi : Int)
    (stat : String) {e : Nat × ((String × String) × Int)}
    (he : e ∈ tab1_offense_lb weekly lo hi stat) :
    e.2.2 = (((weekFilter lo hi weekly).filter
      (fun r => (r.player_display_name, r.position) == e.2.1)).map
        (fun r => r.stats stat)).sum := by
  simp only [tab1_offense_lb] at he
  have h1 := mem_snd_addRanks he
  have h2 := mem_sortDescBy (List.mem_of_mem_take h1)
  rcases List.mem_map.mp h2 with ⟨k, hk, heq⟩
  rw [← heq]

theorem tab1_ngs_lb_value (ngs : List NgsRow) (year : Int) (stat : String)
    {e : Nat × (String × Int)} (he : e ∈ tab1_ngs_lb ngs year stat) :
    e.2.2 = (((ngs.filter (fun r => decide (r.season = year))).filter
      (fun r => r.player_display_name == e.2.1)).map
        (fun r => r.stats stat)).sum := by
  simp only [tab1_ngs_lb] at he
  have h1 := mem_snd_addRanks he
  have h2 := mem_sortDescBy (List.mem_of_mem_take h1)
  rcases List.mem_map.mp h2 with ⟨k, hk, heq⟩
  rw [← heq]

/-- Claim C3, amended.  The offense leaderboard reports for each group
exactly the sum of the metric over the week-filtered rows of that group
(rows outside [lo, hi] contribute nothing); the Next Gen Stats
leaderboard, however, reports the sum over all season rows of the group
regardless of any selected week range. -/
theorem C3_week_range_filter (weekly : List WeeklyRow) (lo hi : Int)
    (stat : String) (ngs : List NgsRow) (year : Int) (nstat : String) :
    (∀ e ∈ tab1_offense_lb weekly lo hi stat,
      e.2.2 = (((weekFilter lo hi weekly).filter
        (fun r => (r.player_display_name, r.position) == e.2.1)).map
          (fun r => r.stats stat)).sum)
    ∧ (∀ e ∈ tab1_ngs_lb ngs year nstat,
      e.2.2 = (((ngs.filter (fun r => decide (r.season = year))).filter
        (fun r => r.player_display_name == e.2.1)).map
          (fun r => r.stats nstat)).sum) :=
  ⟨fun _ he => tab1_offense_lb_value weekly lo hi stat he,
   fun _ he => tab1_ngs_lb_value ngs year nstat he⟩

theorem C3_week_range_filter_witness :
    (1, (("A", "QB"), (7 : Int))) ∈ tab1_offense_lb [wkA, wkB] 1 1 "passing_yards"
    ∧ ((1, (("A", "QB"), (7 : Int))) :
        Nat × ((String × String) × Int)).2.2 =
      (((weekFilter 1 1 [wkA, wkB]).filter
        (fun r => (r.player_display_name, r.position) ==
          ((1, (("A", "QB"), (7 : Int))) :
            Nat × ((String × String) × Int)).2.1)).map
        (fun r => r.stats "passing_yards")).sum :=
  ⟨by decide,
   (C3_week_range_filter [wkA, wkB] 1 1 "passing_yards" [] 2024 "x").1
     (1, (("A", "QB"), (7 : Int))) (by decide)⟩

/-- Two NGS rows for player A in different weeks, 5 each (concrete
counterexample input). -/
def ngsWk1 : NgsRow := ⟨"A", 2024, 1, fun _ => 5⟩

def ngsWk2 : NgsRow := ⟨"A", 2024, 2, fun _ => 5⟩

/-- Counterexample to claim C3 as stated: with week range [1, 1]
selected, the NGS leaderboard reports 10 for player A, while the sum of
that metric over the input rows with 1 ≤ week ≤ 1 is 5 — the NGS path
ignores the selected week range entirely. -/
theorem C3_week_range_filter_counterexample :
    ((tab1_ngs_view [] [ngsWk1, ngsWk2] 2024 1 1 "Stat" "m").1.getD 0
        (0, ("", 0))).2.2 = 10
    ∧ (([ngsWk1, ngsWk2].filter (fun r => decide (r.player_display_name = "A"
        ∧ 1 ≤ r.week ∧ r.week ≤ 1))).map (fun r => r.stats "m")).sum = 5
    ∧ (10 : Int) ≠ 5 :=
  ⟨by decide, by decide, by decide⟩

/-- NGS rows with an avg metric of 2 and 4 over two games (concrete
failing input for claim C5). -/
def avgRow1 : NgsRow := ⟨"A", 2024, 1, fun _ => 2⟩

def avgRow2 : NgsRow := ⟨"A", 2024, 2, fun _ => 4⟩

/-- Claim C5 (code bug evidence): source line 181 computes the
sum-versus-mean selector and classifies avg_time_to_throw as a mean
metric, but line 182 unconditionally calls .sum(): at two games of 2 and
4, the leaderboard shows 6, not the mean 3. -/
theorem C5_avg_metric_is_summed :
    aggregation "avg_time_to_throw" = "mean"
    ∧ ((tab1_ngs_lb [avgRow1, avgRow2] 2024 "avg_time_to_throw").getD 0
        (0, ("", 0))).2.2 = 6
    ∧ ((2 : Int) + 4) / 2 = 3
    ∧ (6 : Int) ≠ 3 :=
  ⟨by decide, by decide, by decide, by decide⟩

/-- Claim C9.  The defensive dataframe and the defense leaderboard shown
in tab 1 are identical across all season-type selections: the toggle
filters only the weekly offensive table, which the defensive path never
reads. -/
theorem C9_defense_ignores_season_type (weekly_raw : List WeeklyRow)
    (plays : List Play) (roster : List RosterEntry) (t1 t2 stat : String) :
    app_defense_view weekly_raw plays roster t1 stat =
      app_defense_view weekly_raw plays roster t2 stat := rfl

/-- Claim C10.  The NGS leaderboard contents are identical for every
selected week range — the NGS branch replaces the week-filtered table
with the season-filtered NGS table — while the chart title does depend
on the range. -/
theorem C10_ngs_ignores_week_range :
    (∀ (weekly : List WeeklyRow) (ngs : List NgsRow) (year lo hi lo2 hi2 : Int)
      (subKey stat : String),
      (tab1_ngs_view weekly ngs year lo hi subKey stat).1 =
        (tab1_ngs_view weekly ngs year lo2 hi2 subKey stat).1)
    ∧ (tab1_ngs_view [] [] 0 1 2 "Avg Time to Throw (sec)"
        "avg_time_to_throw").2 ≠
      (tab1_ngs_view [] [] 0 3 4 "Avg Time to Throw (sec)"
        "avg_time_to_throw").2 :=
  ⟨fun _ _ _ _ _ _ _ _ _ => rfl, by decide⟩

/-! ### Player summary (tab 2) -/

/-- Claim C4.  cols_with_data is exactly the offensive columns whose
full-season sum over the player's rows is strictly positive; it does not
depend on the selected week range; the full-season aggregate carries
exactly those columns; and the range aggregate carries exactly the
cols_with_data columns whose range sum is strictly positive, with that
sum as value. -/
theorem C4_summary_column_stability (weekly : List WeeklyRow) (player : String)
    (lo hi lo2 hi2 : Int) :
    (tab2_summary weekly player lo hi).1 = (tab2_summary weekly player lo2 hi2).1
    ∧ (∀ c, c ∈ (tab2_summary weekly player lo hi).1 ↔
        c ∈ OFFENSE_STATS.map Prod.snd
        ∧ 0 < ((weekly.filter (fun r => r.player_display_name == player)).map
            (fun r => r.stats c)).sum)
    ∧ (tab2_summary weekly player lo hi).2.1.map Prod.fst =
        (tab2_summary weekly player lo hi).1
    ∧ (∀ c v, (c, v) ∈ (tab2_summary weekly player lo hi).2.2 ↔
        (c ∈ (tab2_summary weekly player lo hi).1
        ∧ v = (((weekly.filter (fun r => r.player_display_name == player)).filter
            (fun r => decide (lo ≤ r.week ∧ r.week ≤ hi))).map
              (fun r => r.stats c)).sum
        ∧ 0 < v)) := by
  refine ⟨rfl, ?_, ?_, ?_⟩
  · intro c
    simp only [tab2_summary, List.mem_filter, decide_eq_true_eq]
  · exact keysOf_map_pair _ _
  · intro c v
    simp only [tab2_summary, List.mem_filter, List.mem_map, decide_eq_true_eq]
    constructor
    · rintro ⟨⟨c2, hc2, heq⟩, hpos⟩
      rw [Prod.mk.injEq] at heq
      obtain ⟨rfl, rfl⟩ := heq
      exact ⟨hc2, rfl, hpos⟩
    · rintro ⟨hc, rfl, hpos⟩
      exact ⟨⟨c, hc, rfl⟩, hpos⟩

/-! ### Missing columns and empty inputs -/

theorem countTable_eq_nil {plays : List Play} {playerCol : Play → Option String}
    (h : ∀ p ∈ plays, playerCol p = none) : countTable plays playerCol = [] := by
  have hf : plays.filter (fun p => (playerCol p).isSome) = [] :=
    List.filter_eq_nil_iff.mpr (fun p hp => by simp [h p hp])
  simp [countTable, hf]

theorem flagSumTable_eq_nil {plays : List Play} {flagCol : Play → Int}
    {playerCol : Play → Option String} (h : ∀ p ∈ plays, playerCol p = none) :
    flagSumTable plays flagCol playerCol = [] := by
  have hf : plays.filter (fun p => (playerCol p).isSome) = [] :=
    List.filter_eq_nil_iff.mpr (fun p hp => by simp [h p hp])
  simp [flagSumTable, hf]

/-- Claim C7.  A missing metric column or an empty input produces an
empty result everywhere, never an error: the defensive aggregation of
plays with no attributed defender is the empty table; each tab-1 path
yields no leaderboard when the stat column is absent or the filtered
input table is empty; and an empty defensive table still yields an
(empty) leaderboard. -/
theorem C7_missing_column_empty :
    (∀ (plays : List Play) (roster : List RosterEntry),
      (∀ p ∈ plays, p.sack_player_name = none
        ∧ p.interception_player_name = none
        ∧ p.forced_fumble_player_1_player_name = none
        ∧ p.pass_defense_1_player_name = none
        ∧ p.fumble_recovery_1_player_name = none) →
      load_and_aggregate_pbp_data plays roster = [])
    ∧ (∀ (cols : List String) (df : List (String × List Int × Option String))
        (stat : String), cols.contains stat = false →
        tab1_defense cols df stat = none)
    ∧ (∀ (cols : List String) (stat : String), cols.contains stat = true →
        tab1_defense cols [] stat = some [])
    ∧ (∀ (cols : List String) (weekly : List WeeklyRow) (lo hi : Int)
        (stat : String), cols.contains stat = false →
        tab1_offense cols weekly lo hi stat = none)
    ∧ (∀ (cols : List String) (weekly : List WeeklyRow) (lo hi : Int)
        (stat : String), weekFilter lo hi weekly = [] →
        tab1_offense cols weekly lo hi stat = none)
    ∧ (∀ (cols : List String) (ngs : List NgsRow) (year : Int) (stat : String),
        cols.contains stat = false → tab1_ngs cols ngs year stat = none)
    ∧ (∀ (cols : List String) (ngs : List NgsRow) (year : Int) (stat : String),
        ngs.filter (fun r => decide (r.season = year)) = [] →
        tab1_ngs cols ngs year stat = none) := by
  refine ⟨?_, ?_, ?_, ?_, ?_, ?_, ?_⟩
  · intro plays roster h
    have e1 : flagSumTable plays Play.sack Play.sack_player_name = [] :=
      flagSumTable_eq_nil (fun p hp => (h p hp).1)
    have e2 : flagSumTable plays Play.interception
        Play.interception_player_name = [] :=
      flagSumTable_eq_nil (fun p hp => (h p hp).2.1)
    have e3 : flagSumTable plays Play.fumble_forced
        Play.forced_fumble_player_1_player_name = [] :=
      flagSumTable_eq_nil (fun p hp => (h p hp).2.2.1)
    have e4 : countTable plays Play.pass_defense_1_player_name = [] :=
      countTable_eq_nil (fun p hp => (h p hp).2.2.2.1)
    have e5 : countTable plays Play.fumble_recovery_1_player_name = [] :=
      countTable_eq_nil (fun p hp => (h p hp).2.2.2.2)
    simp [load_and_aggregate_pbp_data, defKindTables, e1, e2, e3, e4, e5,
      mergeAll, mergeFold, mergeOuter, fillZero, keysOf]
  · intro cols df stat h
    have h2 : stat ∉ cols := by simpa using h
    simp [tab1_defense, h2]
  · intro cols stat h
    have h2 : stat ∈ cols := by simpa using h
    simp [tab1_defense, h2, tab1_defense_lb, sortDescBy, addRanks]
  · intro cols weekly lo hi stat h
    have h2 : stat ∉ cols := by simpa using h
    simp [tab1_offense, h2]
  · intro cols weekly lo hi stat h
    simp [tab1_offense, h]
  · intro cols ngs year stat h
    have h2 : stat ∉ cols := by simpa using h
    simp [tab1_ngs, h2]
  · intro cols ngs year stat h
    simp [tab1_ngs, h]

/-- A play-by-play row with no attributed defender anywhere (concrete
witness input). -/
def playEmpty : Play := ⟨0, none, 0, none, 0, none, none, 0, none⟩

theorem C7_missing_column_empty_witness :
    load_and_aggregate_pbp_data [playEmpty] [] = []
    ∧ tab1_defense ["sacks"] [] "tackles" = none
    ∧ tab1_defense ["sacks"] [] "sacks" = some []
    ∧ tab1_offense [] [] 1 2 "passing_yards" = none
    ∧ tab1_offense ["passing_yards"] [] 1 2 "passing_yards" = none
    ∧ tab1_ngs [] [] 2024 "avg_time_to_throw" = none
    ∧ tab1_ngs ["avg_time_to_throw"] [] 2024 "avg_time_to_throw" = none :=
  ⟨C7_missing_column_empty.1 [playEmpty] [] (by decide),
   C7_missing_column_empty.2.1 ["sacks"] [] "tackles" (by decide),
   C7_missing_column_empty.2.2.1 ["sacks"] "sacks" (by decide),
   C7_missing_column_empty.2.2.2.1 [] [] 1 2 "passing_yards" (by decide),
   C7_missing_column_empty.2.2.2.2.1 ["passing_yards"] [] 1 2 "passing_yards"
     rfl,
   C7_missing_column_empty.2.2.2.2.2.1 [] [] 2024 "avg_time_to_throw"
     (by decide),
   C7_missing_column_empty.2.2.2.2.2.2 ["avg_time_to_throw"] [] 2024
     "avg_time_to_throw" rfl⟩

theorem C4_summary_column_stability_witness :
    (tab2_summary [wkA] "A" 1 1).1 = (tab2_summary [wkA] "A" 2 3).1 :=
  (C4_summary_column_stability [wkA] "A" 1 1 2 3).1

theorem C9_defense_ignores_season_type_witness :
    app_defense_view [wkA] [playSackB] [] "All" "sacks" =
      app_defense_view [wkA] [playSackB] [] "Postseason" "sacks" :=
  C9_defense_ignores_season_type [wkA] [playSackB] [] "All" "Postseason" "sacks"

theorem C10_ngs_ignores_week_range_witness :
    (tab1_ngs_view [] [ngA] 2024 1 2 "Stat" "s").1 =
      (tab1_ngs_view [] [ngA] 2024 3 4 "Stat" "s").1 :=
  C10_ngs_ignores_week_range.1 [] [ngA] 2024 1 2 3 4 "Stat" "s"

end NFL
